import Mathlib

/-
Shallow embedding of the bxss v2 payloads/browser subsystem
(src/v2/pkg/payloads/payloads.go): the browser locator and session
factory, the browser-pool state machine, and the line-oriented
payload/custom-request parsers.  External effects (the filesystem, the
chromedp launch, file I/O) are passed in as explicit oracles; machine
state that the Go code mutates is threaded explicitly.
-/

deriving instance DecidableEq for Except

namespace Bxss

/-- The browser kinds recognised by the Go `BrowserType` constants
`Chrome`, `Chromium`, `Firefox`. -/
inductive BrowserType where
  | chrome
  | chromium
  | firefox
  deriving Repr, DecidableEq

/-- Embedding of the Go `Browser` struct: field `Type` is rendered as
`btype` (the literal name collides with Lean's universe keyword),
`Path` is the optional custom override path (empty string means unset),
and `browsers` is the ordered candidate-path list filled by
`initBrowserPaths`. -/
structure Browser where
  btype : BrowserType
  path : String
  browsers : List String
  deriving Repr, DecidableEq

/-- Candidate paths for Chrome, from `initBrowserPaths`. -/
def chromePaths : List String :=
  ["/usr/bin/google-chrome",
   "/usr/bin/google-chrome-stable",
   "/usr/local/bin/google-chrome",
   "/Applications/Google Chrome.app/Contents/MacOS/Google Chrome",
   "C:\\Program Files\\Google\\Chrome\\Application\\chrome.exe",
   "C:\\Program Files (x86)\\Google\\Chrome\\Application\\chrome.exe"]

/-- Candidate paths for Chromium, from `initBrowserPaths`. -/
def chromiumPaths : List String :=
  ["/usr/bin/chromium",
   "/usr/bin/chromium-browser",
   "/usr/local/bin/chromium",
   "/Applications/Chromium.app/Contents/MacOS/Chromium",
   "C:\\Program Files\\Chromium\\Application\\chrome.exe"]

/-- Candidate paths for Firefox, from `initBrowserPaths`. -/
def firefoxPaths : List String :=
  ["/usr/bin/firefox",
   "/usr/local/bin/firefox",
   "/Applications/Firefox.app/Contents/MacOS/firefox",
   "C:\\Program Files\\Mozilla Firefox\\firefox.exe",
   "C:\\Program Files (x86)\\Mozilla Firefox\\firefox.exe"]

/-- The per-kind default candidate list chosen by the `switch` in
`initBrowserPaths`. -/
def defaultPaths : BrowserType → List String
  | .chrome => chromePaths
  | .chromium => chromiumPaths
  | .firefox => firefoxPaths

/-- Embedding of `Browser.initBrowserPaths`: pick the per-kind default
list and, when a custom path is set, prepend it. -/
def initBrowserPaths (b : Browser) : Browser :=
  let base := defaultPaths b.btype
  { b with browsers := if b.path ≠ "" then b.path :: base else base }

/-- Embedding of `NewBrowser`: an unrecognised browser-type string is
coerced to Chrome (the Go code prints a warning, a pure effect not
modelled), then the candidate paths are initialised. -/
def NewBrowser (browserType customPath : String) : Browser :=
  let bt : BrowserType :=
    if browserType = "chrome" then .chrome
    else if browserType = "chromium" then .chromium
    else if browserType = "firefox" then .firefox
    else .chrome
  initBrowserPaths { btype := bt, path := customPath, browsers := [] }

/-- Embedding of `Browser.findBrowserPath`.  `fs p` models
`os.Stat(p)` succeeding, i.e. the path existing on the filesystem.
If the custom path is set and exists it is returned; otherwise the
candidate list is scanned in order (the Go loop over `b.browsers`,
which `List.find?` reproduces); if nothing exists the Go code returns
`errors.New("browser executable not found")`. -/
def findBrowserPath (fs : String → Bool) (b : Browser) : Except String String :=
  if b.path ≠ "" ∧ fs b.path = true then Except.ok b.path
  else
    match b.browsers.find? fs with
    | some p => Except.ok p
    | none => Except.error "browser executable not found"

/-- Outcome of `Browser.CreateContext`, by error family:
`success` carries the resolved executable path; `browserNotFound` is
the wrapped "browser not found" error; `startFailed` is the wrapped
"failed to start browser" error (launch or smoke-navigation failure,
the 10-second timeout included); `featureUnavailable` is the
"firefox support is currently experimental and not fully implemented"
error.  The Go switch has an unreachable final return ("unsupported
browser type") since all three kinds are covered; it is omitted. -/
inductive CreateResult where
  | success (path : String)
  | browserNotFound
  | startFailed
  | featureUnavailable
  deriving Repr, DecidableEq

/-- Embedding of `Browser.CreateContext`.  `fs` models the filesystem
(as in `findBrowserPath`); `launch p` models `chromedp` successfully
starting the browser at path `p` and completing the smoke navigation
within its timeout.  The second component records whether a launch
attempt was made (the chromedp allocator/run path was entered). -/
def CreateContext (fs launch : String → Bool) (b : Browser) :
    CreateResult × Bool :=
  match findBrowserPath fs b with
  | Except.error _ => (CreateResult.browserNotFound, false)
  | Except.ok path =>
    match b.btype with
    | .chrome | .chromium =>
      if launch path = true then (CreateResult.success path, true)
      else (CreateResult.startFailed, true)
    | .firefox => (CreateResult.featureUnavailable, false)

/-- Embedding of the Go `BrowserPool` struct, specialised to a
sequential execution (the mutex and wait group serialise all the
operations modelled here).  Session handles and their release
capabilities are identified by the ghost counter `nextHandle`, so the
handle created by the k-th successful factory call is the number it
was given; `attempts` is a ghost counter of `CreateContext` factory
invocations, used to state how often session creation runs.  `pool`
is the contents of the buffered channel (front = next value received),
`cancelFuncs` the stored release capabilities, `cancelled` whether the
pool-lifetime context has been cancelled. -/
structure BrowserPool where
  pool : List Nat
  cancelFuncs : List Nat
  maxWorkers : Nat
  cancelled : Bool
  initializing : Bool
  initialized : Bool
  initErrCount : Nat
  nextHandle : Nat
  attempts : Nat
  deriving Repr, DecidableEq

/-- Embedding of `NewBrowserPool`: empty buffer and capability list,
fresh (uncancelled) lifetime context, both state flags false. -/
def NewBrowserPool (maxWorkers : Nat) : BrowserPool :=
  { pool := []
    cancelFuncs := []
    maxWorkers := maxWorkers
    cancelled := false
    initializing := false
    initialized := false
    initErrCount := 0
    nextHandle := 0
    attempts := 0 }

/-- The `for i := 0; i < p.maxWorkers; i++` loop of
`BrowserPool.Initialize`, with the session factory abstracted as
`f : Nat → Bool`; `f k` tells whether the k-th factory invocation
(counted by the ghost field `attempts`) succeeds.  A success appends
the new handle to the channel buffer and its release capability to
`cancelFuncs`; a failure increments `initErrCount` (the Go code also
logs only the first failure, a pure effect not modelled). -/
def initAttempts (f : Nat → Bool) : Nat → BrowserPool → BrowserPool
  | 0, p => p
  | n + 1, p =>
    if f p.attempts = true then
      initAttempts f n
        { p with
          attempts := p.attempts + 1
          nextHandle := p.nextHandle + 1
          cancelFuncs := p.cancelFuncs ++ [p.nextHandle]
          pool := p.pool ++ [p.nextHandle] }
    else
      initAttempts f n
        { p with
          attempts := p.attempts + 1
          initErrCount := p.initErrCount + 1 }

/-- Embedding of `BrowserPool.Initialize`.  If either flag is set the
call returns nil immediately; otherwise it runs the `maxWorkers`
creation attempts and then either marks the pool initialized (when
`len(p.cancelFuncs) > 0`, exactly the Go condition) and returns nil,
or leaves `initialized` false and returns the fixed error message. -/
def Initialize (f : Nat → Bool) (p : BrowserPool) :
    BrowserPool × Option String :=
  if p.initializing = true ∨ p.initialized = true then (p, none)
  else
    let q := initAttempts f p.maxWorkers { p with initializing := true }
    if 0 < q.cancelFuncs.length then
      ({ q with initializing := false, initialized := true }, none)
    else
      ({ q with initializing := false },
       some "failed to initialize any browser workers")

/-- A handle handed out by `GetContext`: from the pooled buffer, or a
one-time ("ephemeral") context created because the pool was observed
uninitialized after the initialization wait. -/
inductive CtxResult where
  | pooled (h : Nat)
  | ephemeral (h : Nat)
  deriving Repr, DecidableEq

/-- The part of `BrowserPool.GetContext` after the
`p.initialization.Wait()` point.  In a sequential execution
`initializing` is false here.  If the pool is not initialized, a
one-time context is created directly via the factory (the Go code
propagates the factory error on failure; the factory being abstracted
to a Bool, the error value is represented by a fixed placeholder
message).  Otherwise the `select` takes a handle from the channel if
one is buffered; with an empty buffer it reports pool closure when
the lifetime context is done, else the 5-second timeout.  (When the
buffer is non-empty and the pool is also cancelled, Go's `select`
chooses randomly; the model takes the buffered handle — the theorems
below only rely on states where the choice is determined.) -/
def GetContextRest (f : Nat → Bool) (p : BrowserPool) :
    BrowserPool × Except String CtxResult :=
  if p.initialized = false then
    if f p.attempts = true then
      ({ p with attempts := p.attempts + 1, nextHandle := p.nextHandle + 1 },
       Except.ok (CtxResult.ephemeral p.nextHandle))
    else
      ({ p with attempts := p.attempts + 1 },
       Except.error "failed to create one-time browser context")
  else
    match p.pool with
    | h :: t => ({ p with pool := t }, Except.ok (CtxResult.pooled h))
    | [] =>
      if p.cancelled = true then (p, Except.error "browser pool is closed")
      else (p, Except.error "timeout waiting for browser context")

/-- Embedding of `BrowserPool.GetContext` for a sequential execution:
when neither flag is set, `Initialize` is invoked first and its error,
if any, is returned as-is; then execution continues past the
initialization wait with `GetContextRest`. -/
def GetContext (f : Nat → Bool) (p : BrowserPool) :
    BrowserPool × Except String CtxResult :=
  if p.initialized = false ∧ p.initializing = false then
    match Initialize f p with
    | (p', some e) => (p', Except.error e)
    | (p', none) => GetContextRest f p'
  else
    GetContextRest f p

/-- Embedding of `BrowserPool.ReleaseContext`: a no-op when the pool is
not initialized (one-time contexts are not returned); otherwise the
handle is pushed back when the buffer has room and the lifetime
context is live, and discarded on closure or after the 1-second
timeout (buffer full).  (As in `GetContextRest`, the race between a
ready push and a cancelled context is resolved towards discarding;
the theorems below only use uncancelled states.) -/
def ReleaseContext (p : BrowserPool) (h : Nat) : BrowserPool :=
  if p.initialized = false then p
  else if p.pool.length < p.maxWorkers ∧ p.cancelled = false then
    { p with pool := p.pool ++ [h] }
  else p

/-- Embedding of `BrowserPool.Close`: cancel the lifetime context,
invoke every stored release capability (the returned list: the
capabilities invoked by this call, in order), set the capability list
to nil and mark the pool uninitialized.  The 100 ms grace sleep is a
pure delay, not modelled; note the channel buffer is not drained. -/
def Close (p : BrowserPool) : BrowserPool × List Nat :=
  ({ p with cancelled := true, cancelFuncs := [], initialized := false },
   p.cancelFuncs)

/-- Go's `unicode.IsSpace` on the code points Go treats as white
space: the Latin-1 ones (\t \n \v \f \r space U+0085 U+00A0) and the
Unicode White_Space code points beyond Latin-1. -/
def goIsSpace (c : Char) : Bool :=
  let v := c.toNat
  v = 0x20 ∨ (0x9 ≤ v ∧ v ≤ 0xd) ∨ v = 0x85 ∨ v = 0xa0 ∨
  v = 0x1680 ∨ (0x2000 ≤ v ∧ v ≤ 0x200a) ∨
  v = 0x2028 ∨ v = 0x2029 ∨ v = 0x202f ∨ v = 0x205f ∨ v = 0x3000

/-- Go's `strings.TrimSpace`: drop white space from both ends. -/
def goTrimSpace (s : String) : String :=
  String.mk (((s.data.dropWhile goIsSpace).reverse.dropWhile goIsSpace).reverse)

/-- Embedding of `PayloadParser.ReadLinesFromFile`.  The file is an
oracle: an open/scan error, or the list of raw lines the
`bufio.Scanner` yields.  On success every line is trimmed and
appended — the Go loop keeps blank lines (they become empty
strings); on failure the error is returned and no lines. -/
def ReadLinesFromFile (file : Except String (List String)) :
    Except String (List String) :=
  match file with
  | Except.error e => Except.error e
  | Except.ok ls => Except.ok (ls.map goTrimSpace)

/-- Character membership used to model `strings.Contains(s, ":")` for
the one-character separator the Go code passes. -/
def goContains (c : Char) : List Char → Bool
  | [] => false
  | x :: xs => x = c ∨ goContains c xs

/-- Split a character list at the first occurrence of `sep`:
the part before it and, when present, the part after it. -/
def splitFirst (sep : Char) : List Char → List Char × Option (List Char)
  | [] => ([], none)
  | c :: cs =>
    if c = sep then ([], some cs)
    else
      let r := splitFirst sep cs
      (c :: r.1, r.2)

/-- Go's `strings.SplitN(s, sep, 2)` for a one-character separator:
one element when `sep` does not occur, else the prefix before the
first occurrence and the whole remainder. -/
def goSplitN2 (s : String) (sep : Char) : List String :=
  match splitFirst sep s.data with
  | (a, none) => [String.mk a]
  | (a, some b) => [String.mk a, String.mk b]

/-- Go's `strings.Fields`: the maximal runs of non-white-space
characters, in order.  `acc` holds the current field reversed. -/
def goFieldsAux : List Char → List Char → List String
  | [], [] => []
  | [], acc => [String.mk acc.reverse]
  | c :: cs, acc =>
    if goIsSpace c then
      match acc with
      | [] => goFieldsAux cs []
      | _ :: _ => String.mk acc.reverse :: goFieldsAux cs []
    else goFieldsAux cs (c :: acc)

/-- Go's `strings.Fields` over a string. -/
def goFields (s : String) : List String := goFieldsAux s.data []

/-- The ASCII fragment of Go's `strings.ToUpper` (method tokens are
ASCII; Go additionally maps non-ASCII letters, which none of the
recognised methods contain). -/
def goToUpper (s : String) : String :=
  String.mk (s.data.map fun c =>
    if 'a' ≤ c ∧ c ≤ 'z' then Char.ofNat (c.toNat - 32) else c)

/-- The request produced by `parseRequestLine`: method, URL and the
header name/value pairs added via `req.Header.Add`, in order. -/
structure ModelRequest where
  method : String
  url : String
  headers : List (String × String)
  deriving Repr, DecidableEq

/-- The error family of `RequestParser.ParseRequests` /
`parseRequestLine`, by the `fmt.Errorf` sites: the four per-line
errors carry the 1-based line number the Go messages embed. -/
inductive ParseErr where
  | invalidFormat (lineNum : Nat)
  | invalidMethod (lineNum : Nat) (method : String)
  | newRequestFailed (lineNum : Nat)
  | invalidHeader (lineNum : Nat) (tok : String)
  | emptyPath
  | openFailed (msg : String)
  | noValidRequests
  deriving Repr, DecidableEq

/-- The line number a parse error names, when it names one. -/
def errLineNum : ParseErr → Option Nat
  | .invalidFormat n => some n
  | .invalidMethod n _ => some n
  | .newRequestFailed n => some n
  | .invalidHeader n _ => some n
  | .emptyPath => none
  | .openFailed _ => none
  | .noValidRequests => none

/-- The method set accepted by `parseRequestLine` (`validMethods`). -/
def validMethods : List String :=
  ["GET", "POST", "PUT", "DELETE", "HEAD", "OPTIONS", "PATCH"]

/-- The header loop of `parseRequestLine` (`for i := 2; ...`): each
token must contain a colon, is split with `SplitN(tok, ":", 2)`, and
both parts are trimmed and added; a token without a colon (or, in the
dead defensive branch, a split of length other than 2) fails with the
invalid-header error carrying the line number. -/
def parseHeaders (lineNum : Nat) : List String → Except ParseErr (List (String × String))
  | [] => Except.ok []
  | tok :: rest =>
    if goContains ':' tok.data = true then
      match goSplitN2 tok ':' with
      | [a, b] =>
        match parseHeaders lineNum rest with
        | Except.ok hs => Except.ok ((goTrimSpace a, goTrimSpace b) :: hs)
        | Except.error e => Except.error e
      | _ => Except.error (ParseErr.invalidHeader lineNum tok)
    else Except.error (ParseErr.invalidHeader lineNum tok)

/-- Embedding of `RequestParser.parseRequestLine`.  `newReqOk m u`
models `http.NewRequest(m, u, nil)` succeeding (URL well-formedness is
the standard library's concern).  Field splitting, the arity check,
method upper-casing and validation, and the header loop follow the Go
code in order. -/
def parseRequestLine (newReqOk : String → String → Bool)
    (line : String) (lineNum : Nat) : Except ParseErr ModelRequest :=
  match goFields line with
  | mRaw :: url :: hdrToks =>
    let method := goToUpper mRaw
    if method ∈ validMethods then
      if newReqOk method url = true then
        match parseHeaders lineNum hdrToks with
        | Except.ok hs => Except.ok ⟨method, url, hs⟩
        | Except.error e => Except.error e
      else Except.error (ParseErr.newRequestFailed lineNum)
    else Except.error (ParseErr.invalidMethod lineNum method)
  | _ => Except.error (ParseErr.invalidFormat lineNum)

/-- List-level prefix test: does the first list lead the second? -/
def listLeads : List Char → List Char → Bool
  | [], _ => true
  | _ :: _, [] => false
  | p :: ps, c :: cs => p = c ∧ listLeads ps cs

/-- Go's `strings.HasPrefix`. -/
def goStartsWith (s pre : String) : Bool := listLeads pre.data s.data

/-- The skip condition of the `ParseRequests` loop: after trimming,
empty lines and `#` comments are skipped. -/
def skipLine (l : String) : Bool :=
  goTrimSpace l = "" ∨ goStartsWith (goTrimSpace l) "#"

/-- The scanning loop of `ParseRequests`: `n` lines have been
consumed, so the current line is numbered `n + 1`; a line that parses
is collected in order, the first failing line aborts the whole
parse. -/
def parseLines (newReqOk : String → String → Bool) :
    List String → Nat → Except ParseErr (List ModelRequest)
  | [], _ => Except.ok []
  | l :: ls, n =>
    if skipLine l = true then parseLines newReqOk ls (n + 1)
    else
      match parseRequestLine newReqOk (goTrimSpace l) (n + 1) with
      | Except.error e => Except.error e
      | Except.ok r =>
        match parseLines newReqOk ls (n + 1) with
        | Except.error e => Except.error e
        | Except.ok rs => Except.ok (r :: rs)

/-- Embedding of `RequestParser.ParseRequests`: empty path and
open/scan failures first (the file oracle as in
`ReadLinesFromFile`), then the line loop; an empty result list is the
"no valid requests found in file" error. -/
def ParseRequests (newReqOk : String → String → Bool) (filePath : String)
    (file : Except String (List String)) : Except ParseErr (List ModelRequest) :=
  if filePath = "" then Except.error ParseErr.emptyPath
  else
    match file with
    | Except.error e => Except.error (ParseErr.openFailed e)
    | Except.ok ls =>
      match parseLines newReqOk ls 0 with
      | Except.error e => Except.error e
      | Except.ok rs =>
        if rs = [] then Except.error ParseErr.noValidRequests
        else Except.ok rs

/-- The name/value pair a colon-containing header token denotes:
split at the first colon, both sides trimmed. -/
def headerPair (tok : String) : String × String :=
  match goSplitN2 tok ':' with
  | [a, b] => (goTrimSpace a, goTrimSpace b)
  | _ => (goTrimSpace tok, "")

/-- Number of successful factory invocations among the `n` invocations
numbered `s, s+1, ..., s+n-1`. -/
def countSucc (f : Nat → Bool) (s : Nat) : Nat → Nat
  | 0 => 0
  | n + 1 => (if f s = true then 1 else 0) + countSucc f (s + 1) n

/-- The handle numbers `s, s+1, ..., s+n-1`, in creation order. -/
def rangeFrom (s : Nat) : Nat → List Nat
  | 0 => []
  | n + 1 => s :: rangeFrom (s + 1) n

section Theorems

/-- C10: a browser-type string outside chrome/chromium/firefox does
not fail construction: `NewBrowser` coerces the kind to Chrome, so the
descriptor carries the Chrome candidate-path set (override first when
one is given). -/
theorem new_browser_coerces_unknown (s cp : String)
    (h1 : s ≠ "chrome") (h2 : s ≠ "chromium") (h3 : s ≠ "firefox") :
    (NewBrowser s cp).btype = BrowserType.chrome ∧
    (NewBrowser s cp).browsers
      = (if cp ≠ "" then cp :: chromePaths else chromePaths) := by
  constructor
  · simp [NewBrowser, initBrowserPaths, h1, h2, h3]
  · simp [NewBrowser, initBrowserPaths, defaultPaths, h1, h2, h3]

/-- C10 witness: `NewBrowser` at the concrete unknown type "safari". -/
theorem new_browser_coerces_unknown_instance :
    (NewBrowser "safari" "").btype = BrowserType.chrome ∧
    (NewBrowser "safari" "").browsers = chromePaths := by
  have h := new_browser_coerces_unknown "safari" ""
    (by decide) (by decide) (by decide)
  exact ⟨h.1, by simpa using h.2⟩

/-- C9: `findBrowserPath` returns the override path when set and
existing; otherwise the first existing path of the candidate list
(`List.find?` being first-match scanning); with nothing found the
browser-not-found error; and the candidate list is built at
construction with the override placed first. -/
theorem find_browser_path_resolution (fs : String → Bool) (b : Browser)
    (bt cp : String) :
    (b.path ≠ "" → fs b.path = true → findBrowserPath fs b = Except.ok b.path) ∧
    ((b.path = "" ∨ fs b.path = false) → ∀ q, b.browsers.find? fs = some q →
        findBrowserPath fs b = Except.ok q) ∧
    ((b.path = "" ∨ fs b.path = false) → b.browsers.find? fs = none →
        findBrowserPath fs b = Except.error "browser executable not found") ∧
    (cp ≠ "" → (NewBrowser bt cp).browsers
        = cp :: defaultPaths (NewBrowser bt cp).btype) := by
  have hcond : (b.path = "" ∨ fs b.path = false) →
      ¬ (b.path ≠ "" ∧ fs b.path = true) := by
    rintro (h | h) ⟨hne, hfs⟩
    · exact hne h
    · rw [h] at hfs; exact Bool.false_ne_true hfs
  refine ⟨?_, ?_, ?_, ?_⟩
  · intro h1 h2
    simp [findBrowserPath, h1, h2]
  · intro h q hq
    simp [findBrowserPath, hcond h, hq]
  · intro h hq
    simp [findBrowserPath, hcond h, hq]
  · intro h
    simp [NewBrowser, initBrowserPaths, h]

/-- C9 witness: concrete resolutions — an existing override, an empty
filesystem, override placement, and first-match over the chromium
candidate list. -/
theorem find_browser_path_resolution_instance :
    findBrowserPath (fun s => s == "/opt/chrome") (NewBrowser "chrome" "/opt/chrome")
      = Except.ok "/opt/chrome" ∧
    findBrowserPath (fun _ => false) (NewBrowser "chrome" "")
      = Except.error "browser executable not found" ∧
    (NewBrowser "chrome" "/opt/chrome").browsers = "/opt/chrome" :: chromePaths ∧
    findBrowserPath (fun s => s == "/usr/bin/chromium") (NewBrowser "chromium" "")
      = Except.ok "/usr/bin/chromium" := by
  refine ⟨?_, ?_, ?_, ?_⟩
  · exact (find_browser_path_resolution (fun s => s == "/opt/chrome")
      (NewBrowser "chrome" "/opt/chrome") "chrome" "/opt/chrome").1
      (by decide) (by decide)
  · exact (find_browser_path_resolution (fun _ => false)
      (NewBrowser "chrome" "") "chrome" "").2.2.1 (Or.inl rfl) (by decide)
  · exact (find_browser_path_resolution (fun _ => false)
      (NewBrowser "chrome" "") "chrome" "/opt/chrome").2.2.2 (by decide)
  · exact (find_browser_path_resolution (fun s => s == "/usr/bin/chromium")
      (NewBrowser "chromium" "") "chromium" "").2.1 (Or.inl rfl)
      "/usr/bin/chromium" (by decide)

/-- C6 counterexample: with no firefox executable on the filesystem,
`CreateContext` for the Firefox kind reports browser-not-found, not
the feature-unavailable error — the path lookup runs first, so the
outcome is not independent of filesystem state. -/
theorem firefox_create_missing_cex :
    CreateContext (fun _ => false) (fun _ => true) (NewBrowser "firefox" "")
      = (CreateResult.browserNotFound, false) ∧
    CreateResult.browserNotFound ≠ CreateResult.featureUnavailable := by
  decide

/-- C6 (amended): for the Firefox kind no launch attempt is ever made;
when an executable path resolves the call fails with the
feature-unavailable error, and when none resolves it fails with
browser-not-found. -/
theorem firefox_create_behavior (fs launch : String → Bool) (b : Browser)
    (hb : b.btype = BrowserType.firefox) :
    ((CreateContext fs launch b).2 = false) ∧
    (∀ q, findBrowserPath fs b = Except.ok q →
        (CreateContext fs launch b).1 = CreateResult.featureUnavailable) ∧
    (∀ e, findBrowserPath fs b = Except.error e →
        (CreateContext fs launch b).1 = CreateResult.browserNotFound) := by
  refine ⟨?_, ?_, ?_⟩
  · cases hfp : findBrowserPath fs b with
    | error e => simp [CreateContext, hfp]
    | ok q => simp [CreateContext, hfp, hb]
  · intro q hq; simp [CreateContext, hq, hb]
  · intro e he; simp [CreateContext, he]

/-- C6 witness: firefox kind with its default executable present. -/
theorem firefox_create_behavior_instance :
    (CreateContext (fun s => s == "/usr/bin/firefox") (fun _ => true)
        (NewBrowser "firefox" "")).1 = CreateResult.featureUnavailable ∧
    (CreateContext (fun s => s == "/usr/bin/firefox") (fun _ => true)
        (NewBrowser "firefox" "")).2 = false := by
  have h := firefox_create_behavior (fun s => s == "/usr/bin/firefox")
    (fun _ => true) (NewBrowser "firefox" "") (by decide)
  exact ⟨h.2.1 "/usr/bin/firefox" (by decide), h.1⟩

/-- C7 counterexample: a blank line is not dropped — it is kept as an
empty string, so the reader's output is not the blank-free list the
claim describes. -/
theorem read_lines_keeps_blank_cex :
    ReadLinesFromFile (Except.ok ["a", " ", "b"]) = Except.ok ["a", "", "b"] ∧
    ReadLinesFromFile (Except.ok ["a", " ", "b"]) ≠ Except.ok ["a", "b"] ∧
    "" ∈ ["a", "", "b"] := by
  decide

/-- C7 (amended): on success the reader returns exactly the file's
lines trimmed of surrounding whitespace, in original order, without
deduplication and with blank lines retained as empty strings; on an
I/O failure it returns that error and no lines. -/
theorem read_lines_trims_in_order (ls : List String) (e : String) :
    (ReadLinesFromFile (Except.ok ls) = Except.ok (ls.map goTrimSpace)) ∧
    ((ls.map goTrimSpace).length = ls.length) ∧
    (∀ i, i < ls.length →
        (ls.map goTrimSpace).get? i = (ls.get? i).map goTrimSpace) ∧
    (ReadLinesFromFile (Except.error e) = Except.error e) := by
  refine ⟨rfl, by simp, ?_, rfl⟩
  intro i _
  simp

/-- C7 witness: the reader at a concrete two-line file. -/
theorem read_lines_trims_in_order_instance :
    ReadLinesFromFile (Except.ok ["  a  ", "b"]) = Except.ok ["a", "b"] ∧
    (["  a  ", "b"].map goTrimSpace).get? 0 = some "a" := by
  have h := read_lines_trims_in_order ["  a  ", "b"] "x"
  exact ⟨h.1, h.2.2.1 0 (by decide)⟩

/-- C5 counterexample: a Ready pool holding one handle still holds it
after `Close` — the channel buffer is never drained, contradicting the
claim that `Close` leaves the handle buffer empty. -/
theorem close_leaves_buffer_cex :
    (Close ((Initialize (fun _ => true) (NewBrowserPool 1)).1)).1.pool = [0] ∧
    (Close ((Initialize (fun _ => true) (NewBrowserPool 1)).1)).1.pool ≠ [] := by
  decide

/-- C5 (amended): `Close` cancels the lifetime token, invokes each
stored release capability exactly once in total even across repeated
calls, clears the capability list and marks the pool uninitialized —
but leaves the handle buffer unchanged rather than empty; a second
`Close` invokes no capability and changes nothing. -/
theorem close_idempotent_behavior (p : BrowserPool) :
    (Close p).1.cancelled = true ∧
    (Close p).2 = p.cancelFuncs ∧
    (Close p).1.cancelFuncs = [] ∧
    (Close p).1.initialized = false ∧
    (Close p).1.pool = p.pool ∧
    (Close (Close p).1).2 = [] ∧
    (Close (Close p).1).1 = (Close p).1 :=
  ⟨rfl, rfl, rfl, rfl, rfl, rfl, rfl⟩

theorem initAttempts_attempts (f : Nat → Bool) :
    ∀ (n : Nat) (p : BrowserPool),
      (initAttempts f n p).attempts = p.attempts + n := by
  intro n
  induction n with
  | zero => intro p; simp [initAttempts]
  | succ n ih =>
    intro p
    by_cases h : f p.attempts = true
    · rw [initAttempts, if_pos h, ih]
      show p.attempts + 1 + n = p.attempts + (n + 1)
      omega
    · rw [initAttempts, if_neg h, ih]
      show p.attempts + 1 + n = p.attempts + (n + 1)
      omega

theorem initAttempts_flags (f : Nat → Bool) :
    ∀ (n : Nat) (p : BrowserPool),
      (initAttempts f n p).initializing = p.initializing ∧
      (initAttempts f n p).initialized = p.initialized ∧
      (initAttempts f n p).cancelled = p.cancelled ∧
      (initAttempts f n p).maxWorkers = p.maxWorkers := by
  intro n
  induction n with
  | zero => intro p; simp [initAttempts]
  | succ n ih =>
    intro p
    by_cases h : f p.attempts = true
    · rw [initAttempts, if_pos h]; exact ih _
    · rw [initAttempts, if_neg h]; exact ih _

theorem initAttempts_lengths (f : Nat → Bool) :
    ∀ (n : Nat) (p : BrowserPool),
      (initAttempts f n p).cancelFuncs.length
        = p.cancelFuncs.length + countSucc f p.attempts n ∧
      (initAttempts f n p).pool.length
        = p.pool.length + countSucc f p.attempts n := by
  intro n
  induction n with
  | zero => intro p; simp [initAttempts, countSucc]
  | succ n ih =>
    intro p
    by_cases h : f p.attempts = true
    · rw [initAttempts, if_pos h]
      have h2 := ih { p with
        attempts := p.attempts + 1
        nextHandle := p.nextHandle + 1
        cancelFuncs := p.cancelFuncs ++ [p.nextHandle]
        pool := p.pool ++ [p.nextHandle] }
      simp only [List.length_append, List.length_cons, List.length_nil] at h2
      simp [countSucc, h]
      omega
    · rw [initAttempts, if_neg h]
      have h2 := ih { p with
        attempts := p.attempts + 1
        initErrCount := p.initErrCount + 1 }
      simp only at h2
      simp [countSucc, h]
      omega

theorem initAttempts_allFail (f : Nat → Bool) (hf : ∀ k, f k = false) :
    ∀ (n : Nat) (p : BrowserPool),
      initAttempts f n p
        = { p with attempts := p.attempts + n
                   initErrCount := p.initErrCount + n } := by
  intro n
  induction n with
  | zero => intro p; simp [initAttempts]
  | succ n ih =>
    intro p
    have h : ¬ f p.attempts = true := by simp [hf p.attempts]
    rw [initAttempts, if_neg h, ih]
    simp only [BrowserPool.mk.injEq, true_and, and_true]
    omega

theorem initAttempts_allTrue (f : Nat → Bool) (hf : ∀ k, f k = true) :
    ∀ (n : Nat) (p : BrowserPool),
      initAttempts f n p
        = { p with attempts := p.attempts + n
                   nextHandle := p.nextHandle + n
                   cancelFuncs := p.cancelFuncs ++ rangeFrom p.nextHandle n
                   pool := p.pool ++ rangeFrom p.nextHandle n } := by
  intro n
  induction n with
  | zero => intro p; simp [initAttempts, rangeFrom]
  | succ n ih =>
    intro p
    rw [initAttempts, if_pos (hf p.attempts), ih]
    simp only [BrowserPool.mk.injEq, rangeFrom, List.append_assoc,
      List.singleton_append, true_and, and_true]
    omega

theorem mem_rangeFrom : ∀ (n s x : Nat),
    x ∈ rangeFrom s n ↔ s ≤ x ∧ x < s + n := by
  intro n
  induction n with
  | zero => intro s x; simp [rangeFrom]
  | succ n ih =>
    intro s x
    simp only [rangeFrom, List.mem_cons, ih]
    omega

theorem rangeFrom_nodup : ∀ (n s : Nat), (rangeFrom s n).Nodup := by
  intro n
  induction n with
  | zero => intro s; simp [rangeFrom]
  | succ n ih =>
    intro s
    simp only [rangeFrom, List.nodup_cons, mem_rangeFrom]
    exact ⟨by omega, ih (s + 1)⟩

theorem Initialize_run (f : Nat → Bool) (p : BrowserPool)
    (h1 : p.initializing = false) (h2 : p.initialized = false) :
    (Initialize f p).1.pool
      = (initAttempts f p.maxWorkers { p with initializing := true }).pool ∧
    (Initialize f p).1.pool.length
      = p.pool.length + countSucc f p.attempts p.maxWorkers ∧
    (Initialize f p).1.cancelFuncs.length
      = p.cancelFuncs.length + countSucc f p.attempts p.maxWorkers ∧
    (0 < p.cancelFuncs.length + countSucc f p.attempts p.maxWorkers →
      (Initialize f p).2 = none ∧ (Initialize f p).1.initialized = true) ∧
    (p.cancelFuncs.length + countSucc f p.attempts p.maxWorkers = 0 →
      (Initialize f p).2 = some "failed to initialize any browser workers" ∧
      (Initialize f p).1.initialized = false) := by
  have hcond : ¬ (p.initializing = true ∨ p.initialized = true) := by
    simp [h1, h2]
  have hlen := initAttempts_lengths f p.maxWorkers { p with initializing := true }
  simp only at hlen
  have hflag := initAttempts_flags f p.maxWorkers { p with initializing := true }
  have hinitfl : (initAttempts f p.maxWorkers
      { p with initializing := true }).initialized = p.initialized := hflag.2.1
  rw [Initialize, if_neg hcond]
  dsimp only
  by_cases hpos : 0 < (initAttempts f p.maxWorkers
      { p with initializing := true }).cancelFuncs.length
  · rw [if_pos hpos]
    refine ⟨rfl, hlen.2, hlen.1, fun _ => ⟨rfl, rfl⟩, fun hk => absurd hk (by omega)⟩
  · rw [if_neg hpos]
    refine ⟨rfl, hlen.2, hlen.1, fun hk => absurd hk (by omega),
      fun _ => ⟨rfl, hinitfl.trans h2⟩⟩

/-- C1 counterexample: with capacity 1 and an always-failing factory,
the first `Initialize` completes in the Failed terminal state after
one creation attempt, yet a second `Initialize` call performs a
further attempt (total 2), so the N-attempt sequence is not one-shot
per pool lifetime. -/
theorem init_failed_reruns_attempts_cex :
    ((Initialize (fun _ => false) (NewBrowserPool 1)).2
      = some "failed to initialize any browser workers") ∧
    (Initialize (fun _ => false) (NewBrowserPool 1)).1.initialized = false ∧
    (Initialize (fun _ => false) (NewBrowserPool 1)).1.initializing = false ∧
    (Initialize (fun _ => false) (NewBrowserPool 1)).1.attempts = 1 ∧
    (Initialize (fun _ => false)
      ((Initialize (fun _ => false) (NewBrowserPool 1)).1)).1.attempts = 2 := by
  decide

/-- C1 (amended): the guard is one-shot only for the Ready outcome.
After an `Initialize` that ended Ready (`initialized` set), every
later `Initialize` returns nil with zero further creation attempts
and an unchanged state, and `GetContext` performs no creation attempts
either; but a completed Failed `Initialize` leaves both guard flags
clear, so a later `Initialize` re-runs the full N-attempt sequence. -/
theorem init_terminal_state_behavior (f g : Nat → Bool) (p : BrowserPool) :
    (p.initialized = true → Initialize g p = (p, none)) ∧
    (p.initialized = true → (GetContext g p).1.attempts = p.attempts) ∧
    (p.initializing = false → p.initialized = false →
      (Initialize f p).1.attempts = p.attempts + p.maxWorkers) := by
  refine ⟨?_, ?_, ?_⟩
  · intro h
    rw [Initialize, if_pos (Or.inr h)]
  · intro h
    cases hp : p.pool with
    | nil =>
      by_cases hc : p.cancelled = true
      · simp [GetContext, GetContextRest, h, hp, hc]
      · simp [GetContext, GetContextRest, h, hp, hc]
    | cons a t =>
      simp [GetContext, GetContextRest, h, hp]
  · intro h1 h2
    have hcond : ¬ (p.initializing = true ∨ p.initialized = true) := by
      simp [h1, h2]
    rw [Initialize, if_neg hcond]
    have ha := initAttempts_attempts f p.maxWorkers { p with initializing := true }
    simp only at ha
    dsimp only
    split <;> simpa using ha

/-- C1 witness: the Ready conjuncts at a pool initialized with a
reliable factory, the Failed re-run conjunct at a fresh pool. -/
theorem init_terminal_state_behavior_instance :
    (Initialize (fun _ => false)
        ((Initialize (fun _ => true) (NewBrowserPool 2)).1)
      = ((Initialize (fun _ => true) (NewBrowserPool 2)).1, none)) ∧
    (Initialize (fun _ => false) (NewBrowserPool 2)).1.attempts = 0 + 2 := by
  constructor
  · exact (init_terminal_state_behavior (fun _ => false) (fun _ => false)
      ((Initialize (fun _ => true) (NewBrowserPool 2)).1)).1 (by decide)
  · exact (init_terminal_state_behavior (fun _ => false) (fun _ => false)
      (NewBrowserPool 2)).2.2 (by decide) (by decide)

/-- C2 counterexample: capacity 2, always-failing factory.  After the
completed Failed `Initialize`, five sequential `GetContext` calls each
propagate the pool-initialization failure instead of returning an
ephemeral handle, and each re-runs the 2-attempt initialization
(12 factory invocations in total: 2 + 5 × 2). -/
theorem failed_pool_acquire_error_cex :
    (let f := fun (_ : Nat) => false
     let p1 := (Initialize f (NewBrowserPool 2)).1
     let r1 := GetContext f p1
     let r2 := GetContext f r1.1
     let r3 := GetContext f r2.1
     let r4 := GetContext f r3.1
     let r5 := GetContext f r4.1
     p1.initialized = false ∧ p1.initializing = false ∧
     r1.2 = Except.error "failed to initialize any browser workers" ∧
     r2.2 = Except.error "failed to initialize any browser workers" ∧
     r3.2 = Except.error "failed to initialize any browser workers" ∧
     r4.2 = Except.error "failed to initialize any browser workers" ∧
     r5.2 = Except.error "failed to initialize any browser workers" ∧
     r5.1.attempts = 12) := by
  decide

/-- C2 (amended): on a pool whose initialization completed Failed
(both guard flags clear, no stored capabilities), a sequential
`GetContext` re-invokes `Initialize` — re-running the N-attempt
sequence — and, with a still-failing factory, propagates the
pool-initialization error rather than constructing an ephemeral
handle; the resulting state is again Failed, so every further
sequential call behaves the same. -/
theorem failed_pool_acquire_reinit (f : Nat → Bool) (p : BrowserPool)
    (h1 : p.initializing = false) (h2 : p.initialized = false)
    (h3 : p.cancelFuncs = []) (hf : ∀ n, f n = false) :
    (GetContext f p).2
      = Except.error "failed to initialize any browser workers" ∧
    (GetContext f p).1.attempts = p.attempts + p.maxWorkers ∧
    (GetContext f p).1.initializing = false ∧
    (GetContext f p).1.initialized = false ∧
    (GetContext f p).1.cancelFuncs = [] := by
  have hall := initAttempts_allFail f hf p.maxWorkers { p with initializing := true }
  simp only at hall
  have hcond : ¬ (p.initializing = true ∨ p.initialized = true) := by
    simp [h1, h2]
  have hinit : Initialize f p
      = ({ p with initializing := false
                  attempts := p.attempts + p.maxWorkers
                  initErrCount := p.initErrCount + p.maxWorkers },
         some "failed to initialize any browser workers") := by
    rw [Initialize, if_neg hcond]
    dsimp only
    rw [hall]
    rw [if_neg (by simp [h3])]
  rw [GetContext, if_pos ⟨h2, h1⟩, hinit]
  exact ⟨rfl, rfl, rfl, h2, h3⟩

/-- C2 witness: the amended behaviour at a fresh capacity-2 pool with
an always-failing factory. -/
theorem failed_pool_acquire_reinit_instance :
    (GetContext (fun _ => false) (NewBrowserPool 2)).2
      = Except.error "failed to initialize any browser workers" ∧
    (GetContext (fun _ => false) (NewBrowserPool 2)).1.attempts = 0 + 2 := by
  have h := failed_pool_acquire_reinit (fun _ => false) (NewBrowserPool 2)
    rfl rfl rfl (fun _ => rfl)
  exact ⟨h.1, h.2.1⟩

/-- C3 counterexample: when all attempts fail, the `Initialize` error
is the fixed message "failed to initialize any browser workers",
which contains no digit at all — it does not name the attempted
count, contrary to the claim. -/
theorem init_error_message_no_count_cex :
    ((Initialize (fun _ => false) (NewBrowserPool 2)).2
      = some "failed to initialize any browser workers") ∧
    (∀ c ∈ "failed to initialize any browser workers".data,
      c.isDigit = false) := by
  decide

/-- C3 (amended): on a fresh pool of capacity N, `Initialize` with
k ≥ 1 successful attempts returns nil and leaves the pool Ready with
exactly k pooled handles and k capabilities; with zero successes it
returns the fixed error message (which does not name the attempted
count) and leaves the pool Failed with an empty buffer; with a fully
reliable factory the buffer holds exactly the N distinct handles
created, in creation order. -/
theorem initialize_fresh_pool_outcome (f : Nat → Bool) (N : Nat)
    (_hN : 1 ≤ N) :
    (1 ≤ countSucc f 0 N →
      (Initialize f (NewBrowserPool N)).2 = none ∧
      (Initialize f (NewBrowserPool N)).1.initialized = true ∧
      (Initialize f (NewBrowserPool N)).1.pool.length = countSucc f 0 N ∧
      (Initialize f (NewBrowserPool N)).1.cancelFuncs.length = countSucc f 0 N) ∧
    (countSucc f 0 N = 0 →
      (Initialize f (NewBrowserPool N)).2
        = some "failed to initialize any browser workers" ∧
      (Initialize f (NewBrowserPool N)).1.initialized = false ∧
      (Initialize f (NewBrowserPool N)).1.pool = []) ∧
    ((∀ n, f n = true) →
      (Initialize f (NewBrowserPool N)).1.pool = rangeFrom 0 N ∧
      (Initialize f (NewBrowserPool N)).1.pool.Nodup) := by
  have h := Initialize_run f (NewBrowserPool N) rfl rfl
  refine ⟨?_, ?_, ?_⟩
  · intro hk
    have hpos : 0 < (NewBrowserPool N).cancelFuncs.length
        + countSucc f (NewBrowserPool N).attempts (NewBrowserPool N).maxWorkers := by
      simp only [NewBrowserPool]
      simpa using hk
    refine ⟨(h.2.2.2.1 hpos).1, (h.2.2.2.1 hpos).2, ?_, ?_⟩
    · have := h.2.1
      simpa [NewBrowserPool] using this
    · have := h.2.2.1
      simpa [NewBrowserPool] using this
  · intro hk
    have hz : (NewBrowserPool N).cancelFuncs.length
        + countSucc f (NewBrowserPool N).attempts (NewBrowserPool N).maxWorkers = 0 := by
      simp only [NewBrowserPool]
      simpa using hk
    refine ⟨(h.2.2.2.2 hz).1, (h.2.2.2.2 hz).2, ?_⟩
    have hl := h.2.1
    simp only [NewBrowserPool, List.length_nil, Nat.zero_add] at hl
    rw [hk] at hl
    exact List.length_eq_zero.mp hl
  · intro hf
    have hall := initAttempts_allTrue f hf (NewBrowserPool N).maxWorkers
      { NewBrowserPool N with initializing := true }
    rw [h.1, hall]
    constructor
    · simp [NewBrowserPool]
    · simp only [NewBrowserPool]
      simp only [List.nil_append]
      exact rangeFrom_nodup N 0

/-- C3 witness: a one-of-three success, a total failure, and a fully
reliable factory, each at a concrete capacity. -/
theorem initialize_fresh_pool_outcome_instance :
    (Initialize (fun n => n == 1) (NewBrowserPool 3)).2 = none ∧
    (Initialize (fun n => n == 1) (NewBrowserPool 3)).1.pool.length = 1 ∧
    (Initialize (fun _ => false) (NewBrowserPool 2)).1.pool = [] ∧
    (Initialize (fun _ => true) (NewBrowserPool 3)).1.pool = rangeFrom 0 3 := by
  refine ⟨?_, ?_, ?_, ?_⟩
  · exact ((initialize_fresh_pool_outcome (fun n => n == 1) 3
      (by decide)).1 (by decide)).1
  · exact ((initialize_fresh_pool_outcome (fun n => n == 1) 3
      (by decide)).1 (by decide)).2.2.1
  · exact ((initialize_fresh_pool_outcome (fun _ => false) 2
      (by decide)).2.1 (by decide)).2.2
  · exact ((initialize_fresh_pool_outcome (fun _ => true) 3
      (by decide)).2.2 (fun _ => rfl)).1

/-- C4: on a Ready, uncancelled pool whose buffer respects capacity,
`GetContext` returns the front pooled handle, `ReleaseContext` puts it
back into the buffer (there is room, one slot having just been
freed), and a subsequent `GetContext` again succeeds with a pooled
handle. -/
theorem acquire_release_roundtrip (f : Nat → Bool) (p : BrowserPool)
    (h : Nat) (t : List Nat) (hp : p.pool = h :: t)
    (hinit : p.initialized = true) (hcan : p.cancelled = false)
    (hlen : p.pool.length ≤ p.maxWorkers) :
    (GetContext f p).2 = Except.ok (CtxResult.pooled h) ∧
    (ReleaseContext (GetContext f p).1 h).pool = t ++ [h] ∧
    (∃ h2, (GetContext f (ReleaseContext (GetContext f p).1 h)).2
      = Except.ok (CtxResult.pooled h2)) := by
  have hcond : ¬ (p.initialized = false ∧ p.initializing = false) := by
    simp [hinit]
  have hni : ¬ p.initialized = false := by
    simp [hinit]
  have g1 : GetContext f p = ({ p with pool := t },
      Except.ok (CtxResult.pooled h)) := by
    rw [GetContext, if_neg hcond, GetContextRest, if_neg hni, hp]
  have hroom : t.length < p.maxWorkers := by
    rw [hp] at hlen; simp only [List.length_cons] at hlen; omega
  have g2 : ReleaseContext { p with pool := t } h
      = { p with pool := t ++ [h] } := by
    rw [ReleaseContext, if_neg hni, if_pos ⟨hroom, hcan⟩]
  refine ⟨by rw [g1], by rw [g1, g2], ?_⟩
  rw [g1, g2]
  cases t with
  | nil => exact ⟨h, by simp [GetContext, GetContextRest, hinit]⟩
  | cons a t2 => exact ⟨a, by simp [GetContext, GetContextRest, hinit]⟩

/-- C4 witness: the round trip on a concrete Ready pool of capacity 2
holding handles 0 and 1. -/
theorem acquire_release_roundtrip_instance :
    (GetContext (fun _ => true)
        ((Initialize (fun _ => true) (NewBrowserPool 2)).1)).2
      = Except.ok (CtxResult.pooled 0) ∧
    (ReleaseContext
        (GetContext (fun _ => true)
          ((Initialize (fun _ => true) (NewBrowserPool 2)).1)).1 0).pool
      = [1, 0] := by
  have h := acquire_release_roundtrip (fun _ => true)
    ((Initialize (fun _ => true) (NewBrowserPool 2)).1) 0 [1]
    (by decide) (by decide) (by decide) (by decide)
  exact ⟨h.1, h.2.1⟩

theorem splitFirst_some_of_contains (sep : Char) :
    ∀ l : List Char, goContains sep l = true →
      ∃ a b, splitFirst sep l = (a, some b) := by
  intro l
  induction l with
  | nil => intro h; simp [goContains] at h
  | cons c cs ih =>
    intro h
    by_cases hc : c = sep
    · exact ⟨[], cs, by simp [splitFirst, hc]⟩
    · have h2 : goContains sep cs = true := by
        simp only [goContains, decide_eq_true_eq] at h
        rcases h with h | h
        · exact absurd h hc
        · simpa using h
      obtain ⟨a, b, hab⟩ := ih h2
      exact ⟨c :: a, b, by simp [splitFirst, hc, hab]⟩

theorem goSplitN2_of_contains (tok : String)
    (hc : goContains ':' tok.data = true) :
    ∃ a b, goSplitN2 tok ':' = [a, b] := by
  obtain ⟨a, b, hab⟩ := splitFirst_some_of_contains ':' tok.data hc
  exact ⟨String.mk a, String.mk b, by simp [goSplitN2, hab]⟩

theorem parseHeaders_error_shape (n : Nat) :
    ∀ toks e, parseHeaders n toks = Except.error e →
      ∃ t, e = ParseErr.invalidHeader n t := by
  intro toks
  induction toks with
  | nil => intro e h; simp [parseHeaders] at h
  | cons tok rest ih =>
    intro e h
    by_cases hc : goContains ':' tok.data = true
    · obtain ⟨a, b, hab⟩ := goSplitN2_of_contains tok hc
      rw [parseHeaders, if_pos hc, hab] at h
      cases hrec : parseHeaders n rest with
      | ok hs => rw [hrec] at h; simp at h
      | error e2 =>
        rw [hrec] at h
        simp only [Except.error.injEq] at h
        obtain ⟨t, ht⟩ := ih e2 hrec
        exact ⟨t, h ▸ ht⟩
    · rw [parseHeaders, if_neg hc] at h
      simp only [Except.error.injEq] at h
      exact ⟨tok, h.symm⟩

theorem parseHeaders_all_colon (n : Nat) :
    ∀ toks, (∀ t ∈ toks, goContains ':' t.data = true) →
      parseHeaders n toks = Except.ok (toks.map headerPair) := by
  intro toks
  induction toks with
  | nil => intro _; simp [parseHeaders]
  | cons tok rest ih =>
    intro hall
    have hc := hall tok (by simp)
    obtain ⟨a, b, hab⟩ := goSplitN2_of_contains tok hc
    have hr := ih (fun t ht => hall t (by simp [ht]))
    rw [parseHeaders, if_pos hc, hab, hr]
    simp [headerPair, hab]

theorem parseHeaders_missing_colon (n : Nat) :
    ∀ toks, (∃ t ∈ toks, goContains ':' t.data = false) →
      ∃ t, t ∈ toks ∧ goContains ':' t.data = false ∧
        parseHeaders n toks = Except.error (ParseErr.invalidHeader n t) := by
  intro toks
  induction toks with
  | nil => rintro ⟨t, ht, _⟩; simp at ht
  | cons tok rest ih =>
    rintro ⟨t, ht, hcf⟩
    by_cases hc : goContains ':' tok.data = true
    · have htr : t ∈ rest := by
        rcases List.mem_cons.mp ht with rfl | hmem
        · rw [hc] at hcf; exact absurd hcf (by simp)
        · exact hmem
      obtain ⟨a, b, hab⟩ := goSplitN2_of_contains tok hc
      obtain ⟨u, hu, hufc, hpe⟩ := ih ⟨t, htr, hcf⟩
      refine ⟨u, by simp [hu], hufc, ?_⟩
      rw [parseHeaders, if_pos hc, hab, hpe]
    · have hcf2 : goContains ':' tok.data = false := by
        simpa using hc
      exact ⟨tok, by simp, hcf2, by rw [parseHeaders, if_neg hc]⟩

theorem parseRequestLine_error_line (oracle : String → String → Bool)
    (line : String) (n : Nat) :
    ∀ e, parseRequestLine oracle line n = Except.error e →
      errLineNum e = some n := by
  intro e h
  rcases hf : goFields line with _ | ⟨m, _ | ⟨u, toks⟩⟩
  · rw [parseRequestLine, hf] at h
    simp only [Except.error.injEq] at h
    rw [← h]; rfl
  · rw [parseRequestLine, hf] at h
    simp only [Except.error.injEq] at h
    rw [← h]; rfl
  · rw [parseRequestLine, hf] at h
    dsimp only at h
    by_cases hm : goToUpper m ∈ validMethods
    · rw [if_pos hm] at h
      by_cases ho : oracle (goToUpper m) u = true
      · rw [if_pos ho] at h
        cases hph : parseHeaders n toks with
        | ok hs => rw [hph] at h; simp at h
        | error e2 =>
          rw [hph] at h
          simp only [Except.error.injEq] at h
          obtain ⟨t, ht⟩ := parseHeaders_error_shape n toks e2 hph
          rw [← h, ht]; rfl
      · rw [if_neg ho] at h
        simp only [Except.error.injEq] at h
        rw [← h]; rfl
    · rw [if_neg hm] at h
      simp only [Except.error.injEq] at h
      rw [← h]; rfl

theorem parseLines_skip (oracle : String → String → Bool) :
    ∀ (pre rest : List String) (n : Nat),
      (∀ l ∈ pre, skipLine l = true) →
      parseLines oracle (pre ++ rest) n
        = parseLines oracle rest (n + pre.length) := by
  intro pre
  induction pre with
  | nil => intro rest n _; simp
  | cons l pre ih =>
    intro rest n hall
    have hl := hall l (by simp)
    rw [List.cons_append, parseLines, if_pos hl]
    rw [ih rest (n + 1) (fun x hx => hall x (by simp [hx]))]
    congr 1
    simp only [List.length_cons]
    omega

/-- C8 counterexample: the header token "A:b:c" contains two colons,
not exactly one, yet the line parses successfully — the token is
split at the first colon and the rest becomes the value, so a
token violating the exactly-one-colon rule does not fail the parse. -/
theorem header_two_colons_ok_cex :
    parseRequestLine (fun _ _ => true) "GET http://x A:b:c" 1
      = Except.ok ⟨"GET", "http://x", [("A", "b:c")]⟩ ∧
    (("A:b:c").data.filter (fun c => c = ':')).length = 2 := by
  decide

/-- C8 (amended): a header token must contain at least one colon: a
non-blank non-comment line holding a colon-free header token fails
the whole parse with an error that names that line's number, and no
request list is returned; a token containing one or more colons is
split at the first colon into a trimmed name/value pair.  In detail:
every per-line parse error names its line number; when every header
token contains a colon the header list is exactly the first-colon
split of each token; when some token is colon-free the line fails
with the invalid-header error for such a token; and a failing line
reached after skipped lines aborts `ParseRequests` with that error. -/
theorem header_colon_rule (oracle : String → String → Bool) (line : String)
    (n : Nat) (toks : List String) (fp bad : String)
    (pre post : List String) :
    (∀ e, parseRequestLine oracle line n = Except.error e →
        errLineNum e = some n) ∧
    ((∀ t ∈ toks, goContains ':' t.data = true) →
        parseHeaders n toks = Except.ok (toks.map headerPair)) ∧
    ((∃ t ∈ toks, goContains ':' t.data = false) →
        ∃ t, t ∈ toks ∧ goContains ':' t.data = false ∧
          parseHeaders n toks = Except.error (ParseErr.invalidHeader n t)) ∧
    (fp ≠ "" → (∀ l ∈ pre, skipLine l = true) → skipLine bad = false →
        ∀ e, parseRequestLine oracle (goTrimSpace bad) (pre.length + 1)
            = Except.error e →
          ParseRequests oracle fp (Except.ok (pre ++ bad :: post))
            = Except.error e) := by
  refine ⟨parseRequestLine_error_line oracle line n,
    parseHeaders_all_colon n toks, parseHeaders_missing_colon n toks,
    ?_⟩
  intro hfp hpre hbad e he
  have hplines : parseLines oracle (pre ++ bad :: post) 0
      = Except.error e := by
    rw [parseLines_skip oracle pre (bad :: post) 0 hpre]
    rw [parseLines, if_neg (by simp [hbad])]
    rw [show pre.length + 1 = 0 + pre.length + 1 by omega] at he
    rw [he]
  rw [ParseRequests, if_neg hfp, hplines]

/-- C8 witness: line-number reporting, a one-colon token, a colon-free
token, and a comment line followed by a bad line aborting the whole
parse. -/
theorem header_colon_rule_instance :
    errLineNum (ParseErr.invalidHeader 7 "NoColonHere") = some 7 ∧
    parseHeaders 7 ["A:b"] = Except.ok [("A", "b")] ∧
    (∃ t, t ∈ ["NoColon"] ∧ goContains ':' t.data = false ∧
        parseHeaders 2 ["NoColon"]
          = Except.error (ParseErr.invalidHeader 2 t)) ∧
    ParseRequests (fun _ _ => true) "f"
        (Except.ok ["# c", "GET http://x Z"])
      = Except.error (ParseErr.invalidHeader 2 "Z") := by
  refine ⟨?_, ?_, ?_, ?_⟩
  · exact (header_colon_rule (fun _ _ => true) "GET http://x NoColonHere" 7
      [] "f" "" [] []).1 (ParseErr.invalidHeader 7 "NoColonHere") (by decide)
  · exact (header_colon_rule (fun _ _ => true) "" 7 ["A:b"] "f" "" [] []).2.1
      (by decide)
  · exact (header_colon_rule (fun _ _ => true) "" 2 ["NoColon"] "f" "" []
      []).2.2.1 (by decide)
  · exact (header_colon_rule (fun _ _ => true) "" 2 [] "f" "GET http://x Z"
      ["# c"] []).2.2.2 (by decide) (by decide) (by decide)
      (ParseErr.invalidHeader 2 "Z") (by decide)

end Theorems

end Bxss
